import Mathlib

/-!
Shallow embedding of the posthog-node client core:
feature-flag rollout hashing (`src/feature-flags.js`), the load/evaluate
control flow of the flag poller, the retrying transport (`fetchRetry`),
the timeout wrapper (`fetchTimeout`), and the dispatch queue.
-/

namespace PosthogNode

/-! ### SHA-1 (the `crypto.createHash` SHA-1 primitive used by
`_isSimpleFlagEnabled`), implemented from FIPS 180 over byte lists. -/

/-- Truncate to a 32-bit word. -/
def w32 (n : ℕ) : ℕ := n % 2 ^ 32

/-- Rotate a 32-bit word left by `s` bits. -/
def rotl (s x : ℕ) : ℕ := w32 ((x <<< s) ||| (x >>> (32 - s)))

/-- Bitwise complement within 32 bits. -/
def not32 (x : ℕ) : ℕ := x ^^^ 0xffffffff

/-- SHA-1 padding: append `0x80`, zero bytes to 56 mod 64, then the
64-bit big-endian bit length. -/
def sha1Pad (msg : List ℕ) : List ℕ :=
  let len := msg.length
  let bitLen := len * 8
  let padZeros := (119 - len % 64) % 64
  msg ++ [0x80] ++ List.replicate padZeros 0 ++
    [bitLen >>> 56 % 256, bitLen >>> 48 % 256, bitLen >>> 40 % 256, bitLen >>> 32 % 256,
     bitLen >>> 24 % 256, bitLen >>> 16 % 256, bitLen >>> 8 % 256, bitLen % 256]

/-- Split a byte list into 64-byte blocks (structural recursion on a fuel
bound so the definition reduces in the kernel). -/
def chunks64Aux : ℕ → List ℕ → List (List ℕ)
  | 0, _ => []
  | _, [] => []
  | fuel + 1, l => l.take 64 :: chunks64Aux fuel (l.drop 64)

/-- Split a byte list into 64-byte blocks. -/
def chunks64 (l : List ℕ) : List (List ℕ) := chunks64Aux l.length l

/-- 16 big-endian 32-bit words from one 64-byte block. -/
def bytesToWords (block : List ℕ) : List ℕ :=
  (List.range 16).map fun i =>
    block.getD (4 * i) 0 * 2 ^ 24 + block.getD (4 * i + 1) 0 * 2 ^ 16 +
      block.getD (4 * i + 2) 0 * 2 ^ 8 + block.getD (4 * i + 3) 0

/-- Message-schedule extension from 16 to 80 words. -/
def extendWords (ws : List ℕ) : List ℕ :=
  (List.range 64).foldl
    (fun acc _ =>
      let n := acc.length
      acc ++ [rotl 1 (acc.getD (n - 3) 0 ^^^ acc.getD (n - 8) 0 ^^^
        acc.getD (n - 14) 0 ^^^ acc.getD (n - 16) 0)])
    ws

/-- The five SHA-1 chaining words. -/
structure Sha1State where
  a : ℕ
  b : ℕ
  c : ℕ
  d : ℕ
  e : ℕ
deriving DecidableEq, Repr

/-- One SHA-1 compression round (round index `t`, schedule word `w`). -/
def sha1Round (t w : ℕ) (s : Sha1State) : Sha1State :=
  let f :=
    if t < 20 then (s.b &&& s.c) ||| (not32 s.b &&& s.d)
    else if t < 40 then s.b ^^^ s.c ^^^ s.d
    else if t < 60 then (s.b &&& s.c) ||| (s.b &&& s.d) ||| (s.c &&& s.d)
    else s.b ^^^ s.c ^^^ s.d
  let k :=
    if t < 20 then 0x5A827999
    else if t < 40 then 0x6ED9EBA1
    else if t < 60 then 0x8F1BBCDC
    else 0xCA62C1D6
  let temp := w32 (rotl 5 s.a + f + s.e + k + w)
  ⟨temp, s.a, rotl 30 s.b, s.c, s.d⟩

/-- Compress one 64-byte block into the chaining state. -/
def sha1Block (h : Sha1State) (block : List ℕ) : Sha1State :=
  let ws := extendWords (bytesToWords block)
  let s := (List.range 80).foldl (fun s t => sha1Round t (ws.getD t 0) s) h
  ⟨w32 (h.a + s.a), w32 (h.b + s.b), w32 (h.c + s.c), w32 (h.d + s.d), w32 (h.e + s.e)⟩

/-- SHA-1 initial chaining values. -/
def sha1Init : Sha1State := ⟨0x67452301, 0xEFCDAB89, 0x98BADCFE, 0x10325476, 0xC3D2E1F0⟩

/-- SHA-1 digest of a byte list, as the five chaining words. -/
def sha1Words (msg : List ℕ) : Sha1State :=
  (chunks64 (sha1Pad msg)).foldl sha1Block sha1Init

/-- Lowercase hex digit for a value `< 16`. -/
def hexDigitChar (n : ℕ) : Char :=
  if n < 10 then Char.ofNat (48 + n) else Char.ofNat (87 + n)

/-- Eight hex characters of a 32-bit word, big-endian. -/
def wordToHex8 (w : ℕ) : List Char :=
  [hexDigitChar (w / 16 ^ 7 % 16), hexDigitChar (w / 16 ^ 6 % 16),
   hexDigitChar (w / 16 ^ 5 % 16), hexDigitChar (w / 16 ^ 4 % 16),
   hexDigitChar (w / 16 ^ 3 % 16), hexDigitChar (w / 16 ^ 2 % 16),
   hexDigitChar (w / 16 % 16), hexDigitChar (w % 16)]

/-- The 40 hex characters of a SHA-1 digest, as produced by the hex digest call. -/
def sha1HexChars (msg : List ℕ) : List Char :=
  let h := sha1Words msg
  wordToHex8 h.a ++ wordToHex8 h.b ++ wordToHex8 h.c ++ wordToHex8 h.d ++ wordToHex8 h.e

/-- UTF-8 encoding of one code point. -/
def utf8EncodeChar (n : ℕ) : List ℕ :=
  if n < 0x80 then [n]
  else if n < 0x800 then [0xC0 ||| (n >>> 6), 0x80 ||| (n &&& 0x3F)]
  else if n < 0x10000 then
    [0xE0 ||| (n >>> 12), 0x80 ||| ((n >>> 6) &&& 0x3F), 0x80 ||| (n &&& 0x3F)]
  else
    [0xF0 ||| (n >>> 18), 0x80 ||| ((n >>> 12) &&& 0x3F), 0x80 ||| ((n >>> 6) &&& 0x3F),
     0x80 ||| (n &&& 0x3F)]

/-- UTF-8 bytes of a string. -/
def utf8Bytes (s : String) : List ℕ :=
  s.data.flatMap fun c => utf8EncodeChar c.toNat

/-- The hex digest of the UTF-8 bytes of a string, as a Lean string. -/
def sha1HexOfString (s : String) : String :=
  String.mk (sha1HexChars (utf8Bytes s))

/-! ### `_isSimpleFlagEnabled` (src/feature-flags.js lines 155-166) -/

/-- The divisor constant `LONG_SCALE = 0xfffffffffffffff` from
src/feature-flags.js line 7. -/
def LONG_SCALE : ℕ := 0xfffffffffffffff

/-- Value of one hex character (as consumed by `parseInt(_, 16)` on the
lowercase hex digest; digits and lowercase a-f). -/
def hexVal (c : Char) : ℕ :=
  if 48 ≤ c.toNat ∧ c.toNat ≤ 57 then c.toNat - 48
  else if 97 ≤ c.toNat ∧ c.toNat ≤ 102 then c.toNat - 87
  else 0

/-- `parseInt(cs, 16)` over a list of hex characters. -/
def parseHexDigits (cs : List Char) : ℕ :=
  cs.foldl (fun acc c => 16 * acc + hexVal c) 0

/-- `parseInt` base 16 of the first 15 characters of the hex digest for the message
`` `${key}.${distinctId}` `` (feature-flags.js line 163). -/
def integerRepresentationOfHashSubset (key distinctId : String) : ℕ :=
  parseHexDigits ((sha1HexChars (utf8Bytes (key ++ "." ++ distinctId))).take 15)

/-- The quotient `n / LONG_SCALE` as an exact rational. -/
def hashQuotientOfInt (n : ℕ) : ℚ := (n : ℚ) / (LONG_SCALE : ℚ)

/-- `integerRepresentationOfHashSubset / LONG_SCALE` (feature-flags.js
line 165), as an exact rational. -/
def hashQuotient (key distinctId : String) : ℚ :=
  hashQuotientOfInt (integerRepresentationOfHashSubset key distinctId)

/-- `_isSimpleFlagEnabled({key, distinctId, rolloutPercentage})`
(feature-flags.js lines 155-166).  `rolloutPercentage` is a JSON number or
absent; `none`/`0` model the JS-falsy values accepted by the
`!rolloutPercentage` guard. -/
def _isSimpleFlagEnabled (key distinctId : String) (rolloutPercentage : Option ℚ) : Bool :=
  match rolloutPercentage with
  | none => true
  | some p =>
    if p = 0 then true
    else decide (hashQuotient key distinctId ≤ p / 100)

/-! ### Feature flag poller state and `_loadFeatureFlags`
(src/feature-flags.js lines 27-151) -/

/-- One flag definition as consumed by the poller
(`{key, is_simple_flag, rollout_percentage, active}`). -/
structure FeatureFlag where
  key : String
  is_simple_flag : Bool
  rollout_percentage : Option ℚ
  active : Bool
deriving DecidableEq, Repr

/-- The poller fields mutated by loading
(`featureFlags`, `loadedSuccessfullyOnce`). -/
structure PollerState where
  featureFlags : List FeatureFlag
  loadedSuccessfullyOnce : Bool
deriving DecidableEq, Repr

/-- Outcome of one `decoratedFetch` call: the promise either rejects with
an error message, or resolves to a response with a status and a JSON body
(`none` models a body on which `res.json()` throws). -/
inductive FetchOutcome (α : Type)
  | reject (msg : String)
  | response (status : ℕ) (json : Option α)
deriving DecidableEq

/-- A resolved response as seen past `_request`. -/
structure ApiResponse (α : Type) where
  status : ℕ
  json : Option α
deriving DecidableEq

/-- `res.ok` of the WHATWG fetch response: status in [200, 300). -/
def responseOk (status : ℕ) : Bool := 200 ≤ status && status < 300

/-- `_request` (feature-flags.js lines 169-218): any rejection, and any
resolved response with `!res.ok`, is rethrown as a generic
`Request to <path> failed with error: <msg>` error. -/
def _request (path : String) (o : FetchOutcome α) : Except String (ApiResponse α) :=
  match o with
  | .reject msg => .error ("Request to " ++ path ++ " failed with error: " ++ msg)
  | .response status json =>
    if responseOk status then .ok ⟨status, json⟩
    else .error ("Request to " ++ path ++ " failed with error: Failed to fetch request")

/-- Errors arising inside the try-block of `_loadFeatureFlags`: the
`ClientError` thrown for a 401 status, or any other thrown error. -/
inductive LoadStep
  | clientError (msg : String)
  | plainError (msg : String)
deriving DecidableEq

/-- The `ClientError` message of feature-flags.js lines 127-129. -/
def clientErrorMessage : String :=
  "Your personalApiKey is invalid. Are you sure you are not using your Project API key? More information: https://posthog.com/docs/api/overview"

/-- The try-block of `_loadFeatureFlags` (feature-flags.js lines 124-141):
request the flag list, throw `ClientError` on a returned 401, parse the
JSON, and on `res.ok` replace the table with the active flags. -/
def loadAttempt (o : FetchOutcome (List FeatureFlag)) :
    Except LoadStep PollerState :=
  match _request "api/feature_flag" o with
  | .error m => .error (.plainError m)
  | .ok res =>
    if res.status = 401 then .error (.clientError clientErrorMessage)
    else
      match res.json with
      | none => .error (.plainError "invalid json")
      | some results =>
        if responseOk res.status then
          .ok { featureFlags := results.filter (·.active), loadedSuccessfullyOnce := true }
        else .error (.plainError "Failed to fetch feature flags")

/-- `_loadFeatureFlags` (feature-flags.js lines 115-151): the catch-block
rethrows a `ClientError` and silently swallows every other error, leaving
the state unchanged. -/
def _loadFeatureFlags (st : PollerState) (o : FetchOutcome (List FeatureFlag)) :
    Except String PollerState :=
  match loadAttempt o with
  | .ok st' => .ok st'
  | .error (.clientError m) => .error m
  | .error (.plainError _) => .ok st

/-- `loadFeatureFlags(forceReload)` (feature-flags.js lines 108-112). -/
def loadFeatureFlags (st : PollerState) (forceReload : Bool)
    (o : FetchOutcome (List FeatureFlag)) : Except String PollerState :=
  if !st.loadedSuccessfullyOnce || forceReload then _loadFeatureFlags st o else .ok st

/-! ### `isFeatureEnabled` (src/feature-flags.js lines 42-106) -/

/-- One recorded invocation of `featureFlagCalledCallback`. -/
structure CallbackCall where
  key : String
  distinctId : String
  result : Bool
deriving DecidableEq, Repr

/-- `isFeatureEnabled(key, distinctId, defaultResult, groups)`
(feature-flags.js lines 42-106).  `oLoad` is the fetch outcome consumed by
the initial `loadFeatureFlags()` (when one happens), `oDecide` the outcome
of the remote `POST decide` call (when one happens).  Returns the boolean
result, the poller state after the call, and the list of
`featureFlagCalledCallback` invocations made, in order. -/
def isFeatureEnabled (st : PollerState) (oLoad : FetchOutcome (List FeatureFlag))
    (oDecide : FetchOutcome (List String)) (key distinctId : String)
    (defaultResult : Bool) : Except String (Bool × PollerState × List CallbackCall) :=
  match loadFeatureFlags st false oLoad with
  | .error m => .error m
  | .ok st' =>
    if !st'.loadedSuccessfullyOnce then .ok (defaultResult, st', [])
    else
      match st'.featureFlags.find? (fun flag => key == flag.key) with
      | none => .ok (defaultResult, st', [])
      | some featureFlag =>
        let isFlagEnabledResponse :=
          if featureFlag.is_simple_flag then
            _isSimpleFlagEnabled key distinctId featureFlag.rollout_percentage
          else
            match _request "decide" oDecide with
            | .error _ => defaultResult
            | .ok res =>
              if responseOk res.status then
                match res.json with
                | none => defaultResult
                | some flags => flags.contains key
              else defaultResult
        .ok (isFlagEnabledResponse, st', [⟨key, distinctId, isFlagEnabledResponse⟩])

/-! ### The retrying transport `fetchRetry` (src/unnamed/part_002) -/

/-- A response as observed by `fetchRetry`: its status, the parsed value
of its `retry-after` header (`none` models an absent header or one on
which `parseInt` yields `NaN`), and an identity tag distinguishing the
response object. -/
structure RetryResponse where
  status : ℕ
  retryAfter : Option ℤ
  tag : ℕ
deriving DecidableEq, Repr

/-- What one underlying `fetch` call does inside `fetchRetry`: resolve
with a response, or reject with an error that is aborted, a client error
(`isClientError`), or a plain network error. -/
inductive RetryFetchOutcome
  | resp (r : RetryResponse)
  | err (aborted clientErr : Bool) (tag : ℕ)
deriving DecidableEq

/-- `(res.status >= 500 && res.status < 600) || res.status === 429`. -/
def isRetryableStatus (status : ℕ) : Bool :=
  (500 ≤ status && status < 600) || status == 429

/-- Errors thrown out of one attempt of the `retry` operation. -/
inductive RetryError
  | responseError (r : RetryResponse)
  | fetchError (aborted clientErr : Bool) (tag : ℕ)
deriving DecidableEq

/-- How one attempt of the operation ends. -/
inductive AttemptStep
  | value (r : RetryResponse)
  | bailed (e : RetryError)
  | raised (e : RetryError)
deriving DecidableEq

/-- Waiting performed during the run: the in-attempt
`setTimeout(retryAfter * 1e3)` sleep, or the exponential backoff that
`async-retry` applies before re-running the operation after attempt
`attemptIndex` failed. -/
inductive DelayEvent
  | retryAfterSleep (seconds : ℤ)
  | backoff (attemptIndex : ℕ)
deriving DecidableEq, Repr

/-- One attempt of the operation body (part_002 lines 53-88), given the
outcome of its `fetch` call: a retryable status with a truthy parsed
`retry-after` either returns the response as-is (header above
`maxRetryAfter`) or sleeps that many seconds and throws `ResponseError`;
other retryable statuses throw `ResponseError` directly; aborted and
client errors bail; other errors are rethrown. -/
def attemptStep (maxRetryAfter : ℤ) (o : RetryFetchOutcome) :
    AttemptStep × List DelayEvent :=
  match o with
  | .resp r =>
    if isRetryableStatus r.status then
      match r.retryAfter with
      | some v =>
        if v ≠ 0 then
          if v > maxRetryAfter then (.value r, [])
          else (.raised (.responseError r), [.retryAfterSleep v])
        else (.raised (.responseError r), [])
      | none => (.raised (.responseError r), [])
    else (.value r, [])
  | .err aborted clientErr tag =>
    if aborted then (.bailed (.fetchError aborted clientErr tag), [])
    else if clientErr then (.bailed (.fetchError aborted clientErr tag), [])
    else (.raised (.fetchError aborted clientErr tag), [])

/-- How the `retry(...)` promise settles. -/
inductive RetryRunResult
  | resolved (r : RetryResponse)
  | rejected (e : RetryError)
  | outOfOutcomes
deriving DecidableEq

/-- The `async-retry` attempt loop: run the operation on successive fetch
outcomes; a raised error is retried after a backoff while the attempt
number is at most `retries` (so at most `retries + 1` attempts run), and
otherwise rejects the promise; `bail` rejects immediately; a returned
value resolves it.  `outOfOutcomes` is a model artifact for an outcome
list shorter than the run. -/
def asyncRetry (retries : ℕ) (maxRetryAfter : ℤ) (attempt : ℕ) :
    List RetryFetchOutcome → RetryRunResult × List DelayEvent
  | [] => (.outOfOutcomes, [])
  | o :: rest =>
    match attemptStep maxRetryAfter o with
    | (.value r, ds) => (.resolved r, ds)
    | (.bailed e, ds) => (.rejected e, ds)
    | (.raised e, ds) =>
      if attempt ≤ retries then
        let next := asyncRetry retries maxRetryAfter (attempt + 1) rest
        (next.1, ds ++ DelayEvent.backoff attempt :: next.2)
      else (.rejected e, ds)

/-- How `fetchRetry` settles for its caller. -/
inductive FetchRetryResult
  | ok (r : RetryResponse)
  | error (aborted clientErr : Bool) (tag : ℕ)
  | outOfOutcomes
deriving DecidableEq

/-- The outer catch of `fetchRetry` (part_002 lines 90-96): a rejection
with a `ResponseError` is converted to its stored response; every other
rejection propagates. -/
def settleRun : RetryRunResult → FetchRetryResult
  | .resolved r => .ok r
  | .rejected (.responseError r) => .ok r
  | .rejected (.fetchError aborted clientErr tag) => .error aborted clientErr tag
  | .outOfOutcomes => .outOfOutcomes

/-- `fetchRetry(url, opts)` (part_002 lines 30-97) over the list of
outcomes of its successive `fetch` calls. -/
def fetchRetry (retries : ℕ) (maxRetryAfter : ℤ)
    (outcomes : List RetryFetchOutcome) : FetchRetryResult × List DelayEvent :=
  let run := asyncRetry retries maxRetryAfter 1 outcomes
  (settleRun run.1, run.2)

/-- An attempt outcome that makes the operation throw and retry: a
retryable status whose `retry-after` header is absent/`NaN`, zero, or at
most `maxRetryAfter`. -/
def retryableAttempt (maxRetryAfter : ℤ) (o : RetryFetchOutcome) : Bool :=
  match o with
  | .resp r =>
    isRetryableStatus r.status &&
      (match r.retryAfter with
       | none => true
       | some v => v == 0 || v ≤ maxRetryAfter)
  | .err _ _ _ => false

/-- A plain network-level error outcome (neither aborted nor a client
error, no response received). -/
def networkErrorAttempt : RetryFetchOutcome → Bool
  | .err aborted clientErr _ => !aborted && !clientErr
  | .resp _ => false

/-! ### The timeout wrapper `fetchTimeout` (src/fetchTimeout.js) -/

/-- Which of the two racers settles the promise first. -/
inductive SettleOutcome
  | resolves (tag : ℕ)
  | rejects (msg : String)
  | timerFires
deriving DecidableEq

/-- Observable outcome of one `fetchTimeout` call. -/
structure TimeoutRun where
  result : Except String ℕ
  timerStarted : Bool
  timerCleared : Bool
deriving Repr

/-- `fetchTimeout(url, options)` (fetchTimeout.js lines 16-46).
`timeout` models `options.timeout` (`none` = absent); `first` says
whether the underlying `fetch` settles before the timer.  As in the
source, `timeoutId` is declared but never assigned — the return value of
`setTimeout` is dropped — so the `if (timeoutId) clearTimeout(timeoutId)`
guards in both settle handlers never clear the timer. -/
def fetchTimeout (timeout : Option ℤ) (first : SettleOutcome) : TimeoutRun :=
  let requestTimeout := timeout.getD 0
  let shouldTimeout := decide (0 < requestTimeout)
  let timeoutId : Option ℕ := none
  match first with
  | .timerFires =>
    { result := .error "Network request timeout", timerStarted := shouldTimeout,
      timerCleared := timeoutId.isSome }
  | .resolves tag =>
    { result := .ok tag, timerStarted := shouldTimeout, timerCleared := timeoutId.isSome }
  | .rejects msg =>
    { result := .error msg, timerStarted := shouldTimeout, timerCleared := timeoutId.isSome }

/-! ### The dispatch queue (`enqueue` / `flush`).
The implementing file (`index.js`) is not among the provided sources —
only its tests are — so this component is modelled from the spec. -/

/-- Modelled from the spec: a Queued Item
`{message, callback}` (spec section 3); the message is opaque and the
callback is identified by a tag whose firing is recorded. -/
structure QueueItem where
  message : ℕ
  callback : ℕ
deriving DecidableEq, Repr

/-- Modelled from the spec: the dispatch-queue fields of the client
(spec section 4.2); `batches` records each flushed batch in order and
`fired` the callback tags fired, in order.  The implementing `index.js`
is missing from the sources. -/
structure ClientState where
  queue : List QueueItem
  flushAt : ℕ
  flushed : Bool
  batches : List (List QueueItem)
  fired : List ℕ
deriving DecidableEq, Repr

/-- Modelled from the spec: `flush()` (spec section 4.2) — a no-op on an
empty buffer; otherwise take the prefix of the buffer up to the batch
size, send it as one batch, fire its callbacks in order and remove the
items.  The implementing `index.js` is missing from the sources. -/
def flush (st : ClientState) : ClientState :=
  if st.queue = [] then st
  else
    let items := st.queue.take st.flushAt
    { st with
      queue := st.queue.drop st.flushAt,
      batches := st.batches ++ [items],
      fired := st.fired ++ items.map (·.callback) }

/-- Modelled from the spec: `enqueue(event)` (spec section 4.2) — append
to the tail; flush immediately if no flush has ever run, else flush when
the buffer reaches `flushAt`.  The timer-driven flush is outside this
model.  The implementing `index.js` is missing from the sources. -/
def enqueue (st : ClientState) (item : QueueItem) : ClientState :=
  let st' := { st with queue := st.queue ++ [item] }
  if !st.flushed then flush { st' with flushed := true }
  else if st.flushAt ≤ st'.queue.length then flush st'
  else st'

/-- Enqueue a list of items left to right. -/
def enqueueAll (st : ClientState) (items : List QueueItem) : ClientState :=
  items.foldl enqueue st

end PosthogNode

namespace PosthogNode

/-! ### Lemmas about the rollout hash -/

set_option maxRecDepth 100000

lemma hexVal_lt (c : Char) : hexVal c < 16 := by
  unfold hexVal
  split_ifs <;> omega

lemma foldl_hex_lt (cs : List Char) (acc : ℕ) :
    cs.foldl (fun a c => 16 * a + hexVal c) acc < (acc + 1) * 16 ^ cs.length := by
  induction cs generalizing acc with
  | nil => simp
  | cons c cs ih =>
    calc (c :: cs).foldl (fun a c => 16 * a + hexVal c) acc
        = cs.foldl (fun a c => 16 * a + hexVal c) (16 * acc + hexVal c) := rfl
      _ < (16 * acc + hexVal c + 1) * 16 ^ cs.length := ih _
      _ ≤ (acc + 1) * 16 ^ (c :: cs).length := by
          have h := hexVal_lt c
          simp only [List.length_cons, pow_succ]
          nlinarith [pow_pos (show 0 < 16 by norm_num) cs.length]

lemma parseHexDigits_lt (cs : List Char) : parseHexDigits cs < 16 ^ cs.length := by
  simpa using foldl_hex_lt cs 0

lemma intRep_le_LONG_SCALE (key distinctId : String) :
    integerRepresentationOfHashSubset key distinctId ≤ LONG_SCALE := by
  have h1 := parseHexDigits_lt ((sha1HexChars (utf8Bytes (key ++ "." ++ distinctId))).take 15)
  have h2 : ((sha1HexChars (utf8Bytes (key ++ "." ++ distinctId))).take 15).length ≤ 15 := by
    simp
  have h3 : (16 : ℕ) ^ ((sha1HexChars (utf8Bytes (key ++ "." ++ distinctId))).take 15).length
      ≤ 16 ^ 15 := Nat.pow_le_pow_right (by norm_num) h2
  have : integerRepresentationOfHashSubset key distinctId < 16 ^ 15 :=
    lt_of_lt_of_le h1 h3
  unfold LONG_SCALE
  omega

lemma LONG_SCALE_cast_pos : (0 : ℚ) < (LONG_SCALE : ℕ) := by
  norm_num [LONG_SCALE]

lemma hashQuotient_nonneg (key distinctId : String) : 0 ≤ hashQuotient key distinctId := by
  unfold hashQuotient hashQuotientOfInt
  positivity

lemma hashQuotient_le_one (key distinctId : String) : hashQuotient key distinctId ≤ 1 := by
  unfold hashQuotient hashQuotientOfInt
  rw [div_le_one LONG_SCALE_cast_pos]
  exact_mod_cast intRep_le_LONG_SCALE key distinctId

lemma intRep_ab : integerRepresentationOfHashSubset "a" "b" = 0x69f6642c9d71b46 := by
  decide

lemma sha1Hex_ab : sha1HexOfString "a.b" = "69f6642c9d71b463485b4faf4e989dc3fe77a8c6" := by
  decide

lemma hashQuotient_ab :
    hashQuotient "a" "b" = (477212522564754246 : ℚ) / 1152921504606846975 := by
  rw [hashQuotient, intRep_ab, hashQuotientOfInt]
  norm_num [LONG_SCALE]

lemma simpleFlag_some_nonzero (key distinctId : String) (p : ℚ) (hp : p ≠ 0) :
    _isSimpleFlagEnabled key distinctId (some p)
      = decide (hashQuotient key distinctId ≤ p / 100) := by
  simp only [_isSimpleFlagEnabled, if_neg hp]

lemma enabled_ab_42 : _isSimpleFlagEnabled "a" "b" (some 42) = true := by
  rw [simpleFlag_some_nonzero "a" "b" 42 (by norm_num), decide_eq_true_eq, hashQuotient_ab]
  norm_num

lemma not_enabled_ab_40 : _isSimpleFlagEnabled "a" "b" (some 40) = false := by
  rw [simpleFlag_some_nonzero "a" "b" 40 (by norm_num), decide_eq_false_iff_not,
    hashQuotient_ab]
  norm_num

/-- C1: with a non-falsy rollout percentage, `_isSimpleFlagEnabled` hashes
`"<key>.<distinctId>"` with SHA-1, parses the first 15 hex digits as a
base-16 integer, divides by `0xFFFFFFFFFFFFFFF`, and enables iff the
quotient is at most `rolloutPercentage / 100`; for `key="a"`,
`distinctId="b"` the digest is `69f6642c9d71b463485b4faf4e989dc3fe77a8c6`,
the quotient is approximately `0.4139158829615955`, so `42` enables and
`40` does not. -/
theorem C1_simple_flag_hash_vector :
    sha1HexOfString "a.b" = "69f6642c9d71b463485b4faf4e989dc3fe77a8c6" ∧
    (4139158829615954 : ℚ) / 10 ^ 16 ≤ hashQuotient "a" "b" ∧
    hashQuotient "a" "b" ≤ (4139158829615955 : ℚ) / 10 ^ 16 ∧
    _isSimpleFlagEnabled "a" "b" (some 42) = true ∧
    _isSimpleFlagEnabled "a" "b" (some 40) = false ∧
    ∀ (key distinctId : String) (p : ℚ), p ≠ 0 →
      (_isSimpleFlagEnabled key distinctId (some p) = true ↔
        hashQuotient key distinctId ≤ p / 100) := by
  refine ⟨sha1Hex_ab, ?_, ?_, enabled_ab_42, not_enabled_ab_40, ?_⟩
  · rw [hashQuotient_ab]; norm_num
  · rw [hashQuotient_ab]; norm_num
  · intro key distinctId p hp
    rw [simpleFlag_some_nonzero key distinctId p hp, decide_eq_true_eq]

/-- Witness for C1: the general equivalence applied at the concrete input
`key="a"`, `distinctId="b"`, `p=42`. -/
theorem C1_simple_flag_hash_vector_witness :
    _isSimpleFlagEnabled "a" "b" (some 42) = true ↔ hashQuotient "a" "b" ≤ 42 / 100 :=
  C1_simple_flag_hash_vector.2.2.2.2.2 "a" "b" 42 (by decide)

/-- C7 counterexample: monotonicity in the rollout percentage fails as
stated, because a zero percentage is JS-falsy and unconditionally enables
the flag: at `key="a"`, `distinctId="b"`, `p1=0 < p2=40` the flag is
enabled at `p1` but disabled at `p2`. -/
theorem C7_monotonicity_counterexample :
    ¬ ∀ (key distinctId : String) (p1 p2 : ℚ), p1 < p2 →
        _isSimpleFlagEnabled key distinctId (some p1) = true →
        _isSimpleFlagEnabled key distinctId (some p2) = true := by
  intro h
  have h0 : _isSimpleFlagEnabled "a" "b" (some 0) = true := by
    simp [_isSimpleFlagEnabled]
  have := h "a" "b" 0 40 (by norm_num) h0
  rw [not_enabled_ab_40] at this
  exact Bool.false_ne_true this

/-- C7 amended: for a fixed `(key, distinctId)` the decision is a pure
function of its inputs (deterministic), and it is monotone in the rollout
percentage provided the smaller percentage is non-falsy (nonzero): if
`p1 ≠ 0`, `p1 < p2` and the flag is enabled at `p1`, it is enabled at
`p2`. -/
theorem C7_monotone_for_nonzero_percentage (key distinctId : String) (p1 p2 : ℚ)
    (h0 : p1 ≠ 0) (hlt : p1 < p2)
    (h1 : _isSimpleFlagEnabled key distinctId (some p1) = true) :
    _isSimpleFlagEnabled key distinctId (some p2) = true := by
  rw [simpleFlag_some_nonzero key distinctId p1 h0, decide_eq_true_eq] at h1
  by_cases hp2 : p2 = 0
  · subst hp2
    simp [_isSimpleFlagEnabled]
  · rw [simpleFlag_some_nonzero key distinctId p2 hp2, decide_eq_true_eq]
    have : p1 / 100 ≤ p2 / 100 := by linarith
    linarith

/-- Witness for C7 amended: applied at `key="a"`, `distinctId="b"`,
`p1=42`, `p2=50`. -/
theorem C7_monotone_for_nonzero_percentage_witness :
    _isSimpleFlagEnabled "a" "b" (some 50) = true :=
  C7_monotone_for_nonzero_percentage "a" "b" 42 50 (by decide) (by decide) enabled_ab_42

/-- C9: a falsy rollout percentage (absent/null or zero) unconditionally
enables the flag, for every key and distinctId. -/
theorem C9_falsy_rollout_always_enabled (key distinctId : String) :
    _isSimpleFlagEnabled key distinctId none = true ∧
    _isSimpleFlagEnabled key distinctId (some 0) = true :=
  ⟨rfl, by simp [_isSimpleFlagEnabled]⟩

/-! ### Lemmas about the poller load path -/

lemma responseOk_ne_401 {status : ℕ} (h : responseOk status = true) : status ≠ 401 := by
  simp only [responseOk, Bool.and_eq_true, decide_eq_true_eq] at h
  omega

lemma _loadFeatureFlags_isOk (st : PollerState) (o : FetchOutcome (List FeatureFlag)) :
    ∃ st', _loadFeatureFlags st o = .ok st' := by
  cases o with
  | reject msg => exact ⟨st, rfl⟩
  | response status body =>
    by_cases hok : responseOk status = true
    · have h401 := responseOk_ne_401 hok
      cases body with
      | none =>
        refine ⟨st, ?_⟩
        simp [_loadFeatureFlags, loadAttempt, _request, hok, h401]
      | some results =>
        refine ⟨{ featureFlags := results.filter (·.active),
                  loadedSuccessfullyOnce := true }, ?_⟩
        simp [_loadFeatureFlags, loadAttempt, _request, hok, h401]
    · refine ⟨st, ?_⟩
      rw [Bool.not_eq_true] at hok
      simp [_loadFeatureFlags, loadAttempt, _request, hok]

lemma _loadFeatureFlags_not_ok_response (st : PollerState) (status : ℕ)
    (body : Option (List FeatureFlag)) (h : responseOk status = false) :
    _loadFeatureFlags st (.response status body) = .ok st := by
  simp [_loadFeatureFlags, loadAttempt, _request, h]

/-- C2: a 401 from the flag-listing endpoint never surfaces as a
`ClientError`, not even on an explicit reload: `_request` turns every
non-ok response into a generic `Error` which the catch-block of
`_loadFeatureFlags` swallows, so the 401/`ClientError` branch is
unreachable; no load outcome whatsoever makes `loadFeatureFlags` raise,
and any fetch failure (rejection or non-2xx response, 401 included)
leaves `featureFlags` and `loadedSuccessfullyOnce` unchanged. -/
theorem C2_explicit_reload_401_swallowed :
    (∀ (st : PollerState) (force : Bool) (o : FetchOutcome (List FeatureFlag)),
        ∃ st', loadFeatureFlags st force o = .ok st') ∧
    (∀ (st : PollerState) (status : ℕ) (body : Option (List FeatureFlag)),
        responseOk status = false →
        _loadFeatureFlags st (.response status body) = .ok st) ∧
    (∀ (st : PollerState) (msg : String),
        _loadFeatureFlags st (.reject msg) = .ok st) ∧
    loadFeatureFlags ⟨[⟨"my-flag", true, some 50, true⟩], true⟩ true
        (.response 401 (some [])) = .ok ⟨[⟨"my-flag", true, some 50, true⟩], true⟩ := by
  refine ⟨?_, _loadFeatureFlags_not_ok_response, fun st msg => rfl, rfl⟩
  intro st force o
  unfold loadFeatureFlags
  by_cases h : (!st.loadedSuccessfullyOnce || force) = true
  · rw [if_pos h]
    exact _loadFeatureFlags_isOk st o
  · rw [if_neg h]
    exact ⟨st, rfl⟩

/-- Witness for C2: a background-refresh 502 response is swallowed and
leaves the state unchanged. -/
theorem C2_explicit_reload_401_swallowed_witness :
    _loadFeatureFlags ⟨[], false⟩ (.response 502 none) = .ok ⟨[], false⟩ :=
  C2_explicit_reload_401_swallowed.2.1 ⟨[], false⟩ 502 none (by decide)

/-! ### Lemmas and claims about the callback contract of `isFeatureEnabled` -/

/-- C5 counterexample: the `featureFlagCalledCallback` collaborator is
not invoked on every call: when the flag table never loaded (here the
load fetch rejects), `isFeatureEnabled` returns the default without
recording any callback invocation, refuting "exactly once ... regardless
of branch". -/
theorem C5_callback_every_branch_counterexample :
    ¬ ∀ (st : PollerState) (oL : FetchOutcome (List FeatureFlag))
        (oD : FetchOutcome (List String)) (key distinctId : String)
        (defaultResult r : Bool) (st' : PollerState) (calls : List CallbackCall),
        isFeatureEnabled st oL oD key distinctId defaultResult = .ok (r, st', calls) →
        calls = [⟨key, distinctId, r⟩] := by
  intro h
  have happ := h ⟨[], false⟩ (.reject "ECONNREFUSED") (.reject "ECONNREFUSED")
    "my-flag" "user-1" false false ⟨[], false⟩ [] rfl
  simp at happ

/-- C5 amended: the callback is invoked exactly once, with the key, the
distinctId and the returned boolean, precisely when the table has loaded
successfully and a flag with the requested key is found; on the
table-never-loaded and key-not-found branches it is not invoked at all
(the call returns the default with no callback). -/
theorem C5_callback_once_when_flag_found (st : PollerState)
    (oL : FetchOutcome (List FeatureFlag)) (oD : FetchOutcome (List String))
    (key distinctId : String) (defaultResult r : Bool) (st' : PollerState)
    (calls : List CallbackCall)
    (h : isFeatureEnabled st oL oD key distinctId defaultResult = .ok (r, st', calls)) :
    calls =
      if st'.loadedSuccessfullyOnce &&
          ((st'.featureFlags.find? (fun flag => key == flag.key)).isSome : Bool)
      then [⟨key, distinctId, r⟩] else [] := by
  unfold isFeatureEnabled at h
  cases hload : loadFeatureFlags st false oL with
  | error m => rw [hload] at h; exact absurd h (by simp)
  | ok st1 =>
    rw [hload] at h
    dsimp only at h
    by_cases hl : st1.loadedSuccessfullyOnce = true
    · rw [hl] at h
      simp only [Bool.not_true, Bool.false_eq_true, if_false] at h
      cases hfind : st1.featureFlags.find? (fun flag => key == flag.key) with
      | none =>
        rw [hfind] at h
        simp only [Except.ok.injEq, Prod.mk.injEq] at h
        obtain ⟨hr, hst, hcalls⟩ := h
        subst hst hcalls
        simp [hfind, hl]
      | some featureFlag =>
        rw [hfind] at h
        simp only [Except.ok.injEq, Prod.mk.injEq] at h
        obtain ⟨hr, hst, hcalls⟩ := h
        subst hst hcalls hr
        simp [hfind, hl]
    · rw [Bool.not_eq_true] at hl
      rw [hl] at h
      simp only [Bool.not_false, if_true, Except.ok.injEq, Prod.mk.injEq] at h
      obtain ⟨hr, hst, hcalls⟩ := h
      subst hst hcalls
      simp [hl]

/-- Witness for C5 amended: a loaded table containing a simple flag with
falsy rollout; the callback is recorded exactly once with the result. -/
theorem C5_callback_once_when_flag_found_witness :
    isFeatureEnabled ⟨[⟨"my-flag", true, some 0, true⟩], true⟩ (.reject "x") (.reject "x")
        "my-flag" "u" false
      = .ok (true, ⟨[⟨"my-flag", true, some 0, true⟩], true⟩, [⟨"my-flag", "u", true⟩]) ∧
    [(⟨"my-flag", "u", true⟩ : CallbackCall)] =
      if (⟨[⟨"my-flag", true, some 0, true⟩], true⟩ : PollerState).loadedSuccessfullyOnce &&
          (((⟨[⟨"my-flag", true, some 0, true⟩], true⟩ : PollerState).featureFlags.find?
            (fun flag => "my-flag" == flag.key)).isSome : Bool)
      then [⟨"my-flag", "u", true⟩] else [] :=
  ⟨by rfl,
   C5_callback_once_when_flag_found ⟨[⟨"my-flag", true, some 0, true⟩], true⟩
     (.reject "x") (.reject "x") "my-flag" "u" false true
     ⟨[⟨"my-flag", true, some 0, true⟩], true⟩ [⟨"my-flag", "u", true⟩] (by rfl)⟩

/-- C6: when `options.timeout > 0` the timer is started and, if it fires
before the underlying call settles, the operation fails with the
`Network request timeout` error — but on either settle of the underlying
call the timer is never cleared: the source drops the `setTimeout`
handle (`timeoutId` is declared and never assigned), so the
`if (timeoutId) clearTimeout(timeoutId)` guard in both handlers is dead
and `timerCleared` is `false`, contradicting the cleared-on-settle part
of the claim. -/
theorem C6_timeout_race_timer_never_cleared :
    (∀ t : ℤ, 0 < t →
      (fetchTimeout (some t) .timerFires).result = .error "Network request timeout" ∧
      (fetchTimeout (some t) .timerFires).timerStarted = true) ∧
    (∀ (t : ℤ) (tag : ℕ), (fetchTimeout (some t) (.resolves tag)).timerCleared = false) ∧
    (∀ (t : ℤ) (msg : String), (fetchTimeout (some t) (.rejects msg)).timerCleared = false) := by
  refine ⟨?_, fun t tag => rfl, fun t msg => rfl⟩
  intro t ht
  constructor
  · rfl
  · simp [fetchTimeout, ht]

/-- Witness for C6: timeout 500ms, timer fires first. -/
theorem C6_timeout_race_timer_never_cleared_witness :
    (fetchTimeout (some 500) .timerFires).result = .error "Network request timeout" ∧
    (fetchTimeout (some 500) .timerFires).timerStarted = true :=
  C6_timeout_race_timer_never_cleared.1 500 (by decide)

/-! ### Lemmas and claims about the retrying transport -/

/-- C3 counterexample: for a retryable 500 response carrying
`retry-after: 5` (below the cap), the run sleeps the five seconds and
then ALSO waits the exponential backoff before the second attempt — the
delay trace is `[retryAfterSleep 5, backoff 1]`, not the
`[retryAfterSleep 5]` that "instead of the computed backoff" would
predict. -/
theorem C3_retry_after_replaces_backoff_counterexample :
    fetchRetry 5 20 [.resp ⟨500, some 5, 0⟩, .resp ⟨200, none, 1⟩]
      = (.ok ⟨200, none, 1⟩, [.retryAfterSleep 5, .backoff 1]) ∧
    ([DelayEvent.retryAfterSleep 5, DelayEvent.backoff 1] : List DelayEvent)
      ≠ [DelayEvent.retryAfterSleep 5] := by
  constructor
  · rfl
  · decide

/-- C3 amended: when an attempt yields a retryable response whose
`retry-after` parses to a nonzero integer `v`: if `v` exceeds
`maxRetryAfter` the response is returned to the caller as-is with no
further attempt and no waiting; otherwise the run sleeps `v` seconds and
retries — in addition to (not instead of) the exponential backoff that
the retry loop applies before the next attempt. -/
theorem C3_retry_after_honoring (retries : ℕ) (maxRetryAfter v : ℤ)
    (r : RetryResponse) (rest : List RetryFetchOutcome)
    (hs : isRetryableStatus r.status = true) (hra : r.retryAfter = some v) (hv : v ≠ 0) :
    (maxRetryAfter < v →
      fetchRetry retries maxRetryAfter (.resp r :: rest) = (.ok r, [])) ∧
    (v ≤ maxRetryAfter → 1 ≤ retries →
      fetchRetry retries maxRetryAfter (.resp r :: rest) =
        (settleRun (asyncRetry retries maxRetryAfter 2 rest).1,
          .retryAfterSleep v :: .backoff 1 ::
            (asyncRetry retries maxRetryAfter 2 rest).2)) := by
  constructor
  · intro hgt
    simp [fetchRetry, asyncRetry, attemptStep, hs, hra, hv, hgt, settleRun]
  · intro hle hret
    have hgt : ¬ v > maxRetryAfter := not_lt.mpr hle
    simp [fetchRetry, asyncRetry, attemptStep, hs, hra, hv, hgt, hret, settleRun]

/-- Witness for C3 amended: a 503 with `retry-after: 25` above the
default cap 20 is returned as-is. -/
theorem C3_retry_after_honoring_witness :
    fetchRetry 5 20 [.resp ⟨503, some 25, 0⟩] = (.ok ⟨503, some 25, 0⟩, []) :=
  (C3_retry_after_honoring 5 20 25 ⟨503, some 25, 0⟩ [] (by decide) rfl (by decide)).1
    (by decide)

lemma attemptStep_of_retryable {maxRetryAfter : ℤ} {r : RetryResponse}
    (h : retryableAttempt maxRetryAfter (.resp r) = true) :
    ∃ ds, attemptStep maxRetryAfter (.resp r) = (.raised (.responseError r), ds) := by
  simp only [retryableAttempt, Bool.and_eq_true] at h
  obtain ⟨hs, hra⟩ := h
  cases hrat : r.retryAfter with
  | none => exact ⟨[], by simp [attemptStep, hs, hrat]⟩
  | some v =>
    rw [hrat] at hra
    simp only [Bool.or_eq_true, beq_iff_eq, decide_eq_true_eq] at hra
    by_cases hz : v = 0
    · exact ⟨[], by simp [attemptStep, hs, hrat, hz]⟩
    · have hle : v ≤ maxRetryAfter := by
        rcases hra with h0 | h1
        · exact absurd h0 hz
        · exact h1
      exact ⟨[.retryAfterSleep v], by simp [attemptStep, hs, hrat, hz, not_lt.mpr hle]⟩

lemma asyncRetry_exhaust_resp (maxRetryAfter : ℤ) (os : List RetryFetchOutcome)
    (r : RetryResponse) (retries attempt : ℕ)
    (hall : ∀ o ∈ os, retryableAttempt maxRetryAfter o = true)
    (hlast : retryableAttempt maxRetryAfter (.resp r) = true)
    (hlen : attempt + os.length = retries + 1) :
    ∃ ds, asyncRetry retries maxRetryAfter attempt (os ++ [.resp r])
      = (.rejected (.responseError r), ds) := by
  induction os generalizing attempt with
  | nil =>
    obtain ⟨ds, hstep⟩ := attemptStep_of_retryable hlast
    refine ⟨ds, ?_⟩
    have hlen0 : attempt = retries + 1 := by simpa using hlen
    have hnr : ¬ attempt ≤ retries := by omega
    simp [asyncRetry, hstep, hnr]
  | cons o os ih =>
    have ho : retryableAttempt maxRetryAfter o = true := hall o (by simp)
    obtain ⟨ro, rfl⟩ : ∃ ro, o = .resp ro := by
      cases o with
      | resp ro => exact ⟨ro, rfl⟩
      | err a c t => simp [retryableAttempt] at ho
    obtain ⟨ds, hstep⟩ := attemptStep_of_retryable ho
    have hr : attempt ≤ retries := by
      simp only [List.length_cons] at hlen
      omega
    obtain ⟨ds2, hrec⟩ := ih (attempt + 1) (fun o hmem => hall o (by simp [hmem]))
      (by simp only [List.length_cons] at hlen ⊢; omega)
    refine ⟨ds ++ DelayEvent.backoff attempt :: ds2, ?_⟩
    simp [asyncRetry, hstep, hr, hrec]

lemma asyncRetry_exhaust_err (maxRetryAfter : ℤ) (os : List RetryFetchOutcome)
    (tag : ℕ) (retries attempt : ℕ)
    (hall : ∀ o ∈ os, networkErrorAttempt o = true)
    (hlen : attempt + os.length = retries + 1) :
    ∃ ds, asyncRetry retries maxRetryAfter attempt (os ++ [.err false false tag])
      = (.rejected (.fetchError false false tag), ds) := by
  induction os generalizing attempt with
  | nil =>
    refine ⟨[], ?_⟩
    have hlen0 : attempt = retries + 1 := by simpa using hlen
    have hnr : ¬ attempt ≤ retries := by omega
    simp [asyncRetry, attemptStep, hnr]
  | cons o os ih =>
    have ho : networkErrorAttempt o = true := hall o (by simp)
    obtain ⟨t, rfl⟩ : ∃ t, o = .err false false t := by
      cases o with
      | resp ro => simp [networkErrorAttempt] at ho
      | err a c t =>
        simp only [networkErrorAttempt, Bool.and_eq_true, Bool.not_eq_eq_eq_not,
          Bool.not_true] at ho
        exact ⟨t, by rw [ho.1, ho.2]⟩
    have hr : attempt ≤ retries := by
      simp only [List.length_cons] at hlen
      omega
    obtain ⟨ds2, hrec⟩ := ih (attempt + 1) (fun o hmem => hall o (by simp [hmem]))
      (by simp only [List.length_cons] at hlen ⊢; omega)
    refine ⟨DelayEvent.backoff attempt :: ds2, ?_⟩
    simp [asyncRetry, attemptStep, hr, hrec]

/-- C4: when every attempt up to the retry limit yields a retryable
response (5xx or 429, `retry-after` absent, zero or within the cap), the
last received response object itself is returned to the caller, not a
synthetic error; when every attempt fails with a network-level error (no
response at all), the last error propagates as a failure once retries are
exhausted. -/
theorem C4_exhausted_retries_last_outcome (retries : ℕ) (maxRetryAfter : ℤ) :
    (∀ (os : List RetryFetchOutcome) (r : RetryResponse), os.length = retries →
      (∀ o ∈ os, retryableAttempt maxRetryAfter o = true) →
      retryableAttempt maxRetryAfter (.resp r) = true →
      ∃ ds, fetchRetry retries maxRetryAfter (os ++ [.resp r]) = (.ok r, ds)) ∧
    (∀ (os : List RetryFetchOutcome) (tag : ℕ), os.length = retries →
      (∀ o ∈ os, networkErrorAttempt o = true) →
      ∃ ds, fetchRetry retries maxRetryAfter (os ++ [.err false false tag])
        = (.error false false tag, ds)) := by
  constructor
  · intro os r hlen hall hlast
    obtain ⟨ds, hrun⟩ := asyncRetry_exhaust_resp maxRetryAfter os r retries 1 hall hlast
      (by omega)
    exact ⟨ds, by simp [fetchRetry, hrun, settleRun]⟩
  · intro os tag hlen hall
    obtain ⟨ds, hrun⟩ := asyncRetry_exhaust_err maxRetryAfter os tag retries 1 hall
      (by omega)
    exact ⟨ds, by simp [fetchRetry, hrun, settleRun]⟩

/-- Witness for C4: two attempts (retries = 1); a 503-then-500 run
returns the final 500 response; a run of two network errors propagates
the last error. -/
theorem C4_exhausted_retries_last_outcome_witness :
    (∃ ds, fetchRetry 1 20 [.resp ⟨503, none, 0⟩, .resp ⟨500, none, 1⟩]
      = (.ok ⟨500, none, 1⟩, ds)) ∧
    (∃ ds, fetchRetry 1 20 [.err false false 5, .err false false 7]
      = (.error false false 7, ds)) :=
  ⟨(C4_exhausted_retries_last_outcome 1 20).1 [.resp ⟨503, none, 0⟩] ⟨500, none, 1⟩
      rfl (by decide) (by decide),
   (C4_exhausted_retries_last_outcome 1 20).2 [.err false false 5] 7 rfl (by decide)⟩

/-! ### Lemmas and the claim about the dispatch queue -/

lemma enqueue_below_threshold (st : ClientState) (item : QueueItem)
    (hf : st.flushed = true) (hlen : st.queue.length + 1 < st.flushAt) :
    enqueue st item = { st with queue := st.queue ++ [item] } := by
  unfold enqueue
  rw [hf]
  simp only [Bool.not_true, Bool.false_eq_true, if_false]
  rw [if_neg]
  simp only [List.length_append, List.length_cons, List.length_nil]
  omega

lemma enqueueAll_below_threshold (st : ClientState) (l : List QueueItem)
    (hf : st.flushed = true) (hlen : st.queue.length + l.length < st.flushAt) :
    enqueueAll st l = { st with queue := st.queue ++ l } := by
  induction l generalizing st with
  | nil => simp [enqueueAll]
  | cons a l ih =>
    have step := enqueue_below_threshold st a hf (by simp at hlen; omega)
    have tail := ih { st with queue := st.queue ++ [a] } hf
      (by simp only [List.length_append, List.length_cons, List.length_nil]
          simp only [List.length_cons] at hlen
          omega)
    calc enqueueAll st (a :: l) = enqueueAll (enqueue st a) l := rfl
      _ = enqueueAll { st with queue := st.queue ++ [a] } l := by rw [step]
      _ = { st with queue := (st.queue ++ [a]) ++ l } := tail
      _ = { st with queue := st.queue ++ (a :: l) } := by
          rw [List.append_assoc]
          rfl

lemma enqueueAll_append (st : ClientState) (x y : List QueueItem) :
    enqueueAll st (x ++ y) = enqueueAll (enqueueAll st x) y := by
  simp [enqueueAll, List.foldl_append]

lemma enqueueAll_singleton (st : ClientState) (a : QueueItem) :
    enqueueAll st [a] = enqueue st a := rfl

lemma enqueue_hits_threshold (st : ClientState) (item : QueueItem)
    (hf : st.flushed = true) (hlen : st.queue.length + 1 = st.flushAt) :
    enqueue st item =
      { st with queue := [],
                batches := st.batches ++ [st.queue ++ [item]],
                fired := st.fired ++ (st.queue ++ [item]).map (·.callback) } := by
  have hfull : (st.queue ++ [item]).length = st.flushAt := by
    simp only [List.length_append, List.length_cons, List.length_nil]
    omega
  unfold enqueue
  rw [hf]
  simp only [Bool.not_true, Bool.false_eq_true, if_false]
  rw [if_pos (show st.flushAt ≤ (st.queue ++ [item]).length by omega)]
  unfold flush
  rw [if_neg (show ¬ (st.queue ++ [item] = []) by simp)]
  have htake : (st.queue ++ [item]).take st.flushAt = st.queue ++ [item] := by
    rw [← hfull, List.take_length]
  have hdrop : (st.queue ++ [item]).drop st.flushAt = [] := by
    rw [← hfull, List.drop_length]
  rw [htake, hdrop]

/-- C8: from an empty buffer (size trigger armed, no first-message flush
pending) with threshold `flushAt ≥ 1`, synchronously enqueuing exactly
`flushAt` items triggers exactly one flush whose batch is exactly those
items in insertion order, firing their callbacks in enqueue order; items
enqueued after the cutoff (fewer than `flushAt` of them) join no batch
and remain buffered for the next flush. -/
theorem C8_flushAt_triggers_single_flush (flushAt : ℕ) (first rest : List QueueItem)
    (h1 : 1 ≤ flushAt) (hfirst : first.length = flushAt) (hrest : rest.length < flushAt) :
    enqueueAll ⟨[], flushAt, true, [], []⟩ (first ++ rest)
      = ⟨rest, flushAt, true, [first], first.map (·.callback)⟩ := by
  obtain hnil | ⟨f, a, hfa⟩ := first.eq_nil_or_concat
  · subst hnil
    simp at hfirst
    omega
  · rw [List.concat_eq_append] at hfa
    subst hfa
    have hflen : f.length + 1 = flushAt := by
      simpa using hfirst
    have step1 : enqueueAll ⟨[], flushAt, true, [], []⟩ f
        = ⟨f, flushAt, true, [], []⟩ := by
      have := enqueueAll_below_threshold ⟨[], flushAt, true, [], []⟩ f rfl
        (by simp; omega)
      simpa using this
    have step2 : enqueue (⟨f, flushAt, true, [], []⟩ : ClientState) a
        = ⟨[], flushAt, true, [f ++ [a]], (f ++ [a]).map (·.callback)⟩ := by
      have := enqueue_hits_threshold (⟨f, flushAt, true, [], []⟩ : ClientState) a rfl
        (by simpa using hflen)
      simpa using this
    have step3 : enqueueAll (⟨[], flushAt, true, [f ++ [a]],
        (f ++ [a]).map (·.callback)⟩ : ClientState) rest
        = ⟨rest, flushAt, true, [f ++ [a]], (f ++ [a]).map (·.callback)⟩ := by
      have := enqueueAll_below_threshold
        ⟨[], flushAt, true, [f ++ [a]], (f ++ [a]).map (·.callback)⟩ rest rfl
        (by simp; omega)
      simpa using this
    rw [enqueueAll_append, enqueueAll_append, step1, enqueueAll_singleton, step2, step3]

/-- Witness for C8: threshold 2, two items enqueued then a third. -/
theorem C8_flushAt_triggers_single_flush_witness :
    enqueueAll ⟨[], 2, true, [], []⟩ ([⟨10, 0⟩, ⟨11, 1⟩] ++ [⟨12, 2⟩])
      = ⟨[⟨12, 2⟩], 2, true, [[⟨10, 0⟩, ⟨11, 1⟩]], [0, 1]⟩ :=
  C8_flushAt_triggers_single_flush 2 [⟨10, 0⟩, ⟨11, 1⟩] [⟨12, 2⟩]
    (by decide) (by decide) (by decide)

/-- C10: the quotient `integerRepresentationOfHashSubset / LONG_SCALE`
lies in the closed interval `[0, 1]` for every key and distinctId; the
divisor is `0xFFFFFFFFFFFFFFF`, so the quotient formula attains `1`
exactly when the 15-hex-digit prefix is all `f`; consequently a rollout
percentage of 100 enables the flag for every subject. -/
theorem C10_quotient_unit_interval_and_full_rollout :
    (∀ key distinctId : String,
      0 ≤ hashQuotient key distinctId ∧ hashQuotient key distinctId ≤ 1) ∧
    hashQuotientOfInt LONG_SCALE = 1 ∧
    (∀ key distinctId : String, _isSimpleFlagEnabled key distinctId (some 100) = true) := by
  refine ⟨fun key d => ⟨hashQuotient_nonneg key d, hashQuotient_le_one key d⟩, ?_, ?_⟩
  · rw [hashQuotientOfInt]
    exact div_self (ne_of_gt LONG_SCALE_cast_pos)
  · intro key d
    rw [simpleFlag_some_nonzero key d 100 (by norm_num), decide_eq_true_eq]
    have := hashQuotient_le_one key d
    linarith

end PosthogNode
